import Mathlib

/-!
Verification development for the invoice-parser service (`src/main.py`).

The Python source is shallowly embedded here:

* strings are Lean `String`s, manipulated through their underlying
  `List Char` so that all operations are executable and kernel-reducible;
* Python `float` money amounts are modelled as exact rationals `ℚ`
  (the usual idealisation; `round(x, n)` becomes exact half-even decimal
  rounding `pyRound`);
* Python `int` is `Int`;
* the external collaborators (PyMuPDF, the OpenAI HTTP endpoint, the
  Supabase client) are modelled as environment inputs: the per-PDF page
  text and the JSON object returned by the LLM are inputs, and each HTTP
  attempt of the normalizer is an `Attempt` outcome supplied by the
  environment;
* Python exceptions are explicit: fallible steps return `Except`/`Option`,
  and `try/except` becomes a `match`.
-/

/-! ## Character and string utilities (models of the Python `str` methods used) -/

/-- Word character for the `re` module `\b` boundary: `[A-Za-z0-9_]`
(ASCII scope, which is all the source patterns exercise). -/
def isWordChar (c : Char) : Bool := c.isAlphanum || c = '_'

/-- Python regex `\s` (ASCII scope): space, tab, newline, carriage return,
vertical tab, form feed. -/
def isPySpace (c : Char) : Bool :=
  c = ' ' || c = '\t' || c = '\n' || c = '\r' || c = Char.ofNat 11 || c = Char.ofNat 12

/-- `str.strip()` on a character list: drop leading and trailing whitespace. -/
def stripChars (l : List Char) : List Char :=
  ((l.dropWhile isPySpace).reverse.dropWhile isPySpace).reverse

/-- `str.strip()`. -/
def pyStrip (s : String) : String := ⟨stripChars s.data⟩

/-- `str.lower()` (ASCII scope). -/
def pyLower (s : String) : String := ⟨s.data.map Char.toLower⟩

/-- `s[:n]` on strings. -/
def pyTake (s : String) (n : Nat) : String := ⟨s.data.take n⟩

/-- `str.endswith(suffix)`, via reversed prefix comparison. -/
def strEndsWith (s suffix : String) : Bool :=
  suffix.data.reverse.isPrefixOf s.data.reverse

/-- `name.lower().endswith(".pdf")`, the archive-entry filter of `ingest`. -/
def isPdfName (s : String) : Bool := strEndsWith (pyLower s) ".pdf"

/-- `str.splitlines()`-style split used by `supplier_guess`; modelled as a
split on the newline character (the `\r` of a `\r\n` pair is removed by the
subsequent `strip()`, so the difference is immaterial for the source). -/
def splitNl (l : List Char) : List (List Char) :=
  l.foldr (fun c acc =>
    match acc with
    | [] => if c = '\n' then [[], []] else [[c]]
    | a :: rest => if c = '\n' then [] :: (a :: rest) else (c :: a) :: rest) [[]]

/-- `os.path.basename`: everything after the last `/`. -/
def basenameChars (l : List Char) : List Char :=
  l.foldl (fun acc c => if c = '/' then [] else acc ++ [c]) []

/-- `os.path.basename`. -/
def pyBasename (s : String) : String := ⟨basenameChars s.data⟩

/-- The root part of `os.path.splitext`: cut at the last dot, provided some
character before that dot (within the name) is not itself a dot; a pure
leading-dots name keeps its dots (CPython `posixpath.splitext`). -/
def splitextRoot (l : List Char) : List Char :=
  let r := l.reverse
  let afterDot := r.takeWhile (fun c => c ≠ '.')
  if afterDot.length = r.length then l
  else
    let beforeDot := r.drop (afterDot.length + 1)
    if beforeDot.any (fun c => c ≠ '.') then beforeDot.reverse else l

/-- `os.path.splitext(os.path.basename(fname))[0]`, the filename fallback of
`invnum_guess`. -/
def baseNoExt (fname : String) : String := ⟨splitextRoot (basenameChars fname.data)⟩

/-- Python string truthiness fallback `a or b` for strings. -/
def orS (a b : String) : String := if a = "" then b else a

/-! ## Exact decimal rounding (model of Python `round(x, nd)`) -/

/-- Floor of a rational, computed explicitly (`num` floor-divided by `den`). -/
def ratFloor (q : ℚ) : ℤ := q.num.fdiv q.den

/-- Round to nearest integer, ties to even: the behaviour of Python `round`
on exact halves (floats are idealised as exact rationals here). -/
def roundHalfEven (q : ℚ) : ℤ :=
  let f := ratFloor q
  let r := q - (f : ℚ)
  if r < 1/2 then f
  else if 1/2 < r then f + 1
  else if f % 2 = 0 then f else f + 1

/-- `round(x, nd)` on the rational model. -/
def pyRound (q : ℚ) (nd : Nat) : ℚ :=
  let p : ℚ := (10 : ℚ) ^ nd
  ((roundHalfEven (q * p) : ℤ) : ℚ) / p

/-- `round(x, 2)`. -/
def round2 (q : ℚ) : ℚ := pyRound q 2

/-- `round(x, 3)`. -/
def round3 (q : ℚ) : ℚ := pyRound q 3

/-! ## Regex search model

Each `re.search` call of the source uses one fixed pattern; each pattern is
implemented directly as a leftmost scanner over the character list, with the
backtracking the specific pattern needs (greedy quantifier shrink, optional
group retry).  `re.search` returns the first position, in left-to-right
order, at which the pattern matches.
-/

/-- `\b` between a last consumed character and the rest of the input:
exactly one side is a word character (end of input counts as non-word). -/
def boundaryAfter (last : Char) (rest : List Char) : Bool :=
  match rest with
  | [] => isWordChar last
  | c :: _ => isWordChar last ≠ isWordChar c

/-- `\b` before the first character of a candidate match. -/
def boundaryBefore (prev : Option Char) (first : Char) : Bool :=
  match prev with
  | none => isWordChar first
  | some p => isWordChar p ≠ isWordChar first

/-- Character class `[A-Z0-9\-]` under `re.I`. -/
def isLabelClass (c : Char) : Bool := c.isAlpha || c.isDigit || c = '-'

/-- Case-insensitive match of a single character against a lowercase target. -/
def ciIs (c t : Char) : Bool := c.toLower = t

/-- Greedy `{6,}` then `\b`: starting from the full run (reversed) try ever
shorter prefixes of the run, longest first, until the trailing boundary
holds; fails below six characters. -/
def labelShrink : List Char → List Char → Option (List Char)
  | [], _ => none
  | c :: rrest, after =>
    if 6 ≤ (c :: rrest).length ∧ boundaryAfter c after then
      some (c :: rrest).reverse
    else labelShrink rrest (c :: after)

/-- After `INV` or `INVOICE`: `\s*#?\s*([A-Z0-9\-]{6,})\b`. -/
def labelTail (l : List Char) : Option (List Char) :=
  let l1 := l.dropWhile isPySpace
  let l2 := match l1 with
    | '#' :: r => r
    | _ => l1
  let l3 := l2.dropWhile isPySpace
  let run := l3.takeWhile isLabelClass
  labelShrink run.reverse (l3.drop run.length)

/-- One attempt of `\bINV(?:OICE)?\s*#?\s*([A-Z0-9\-]{6,})\b` (with `re.I`)
at a fixed position; the optional `OICE` is tried greedily first. -/
def matchLabelAt (prev : Option Char) (l : List Char) : Option (List Char) :=
  match l with
  | c1 :: c2 :: c3 :: rest =>
    if boundaryBefore prev c1 ∧ ciIs c1 'i' ∧ ciIs c2 'n' ∧ ciIs c3 'v' then
      let withOice := match rest with
        | o :: i :: c :: e :: r2 =>
          if ciIs o 'o' ∧ ciIs i 'i' ∧ ciIs c 'c' ∧ ciIs e 'e' then labelTail r2 else none
        | _ => none
      match withOice with
      | some v => some v
      | none => labelTail rest
    else none
  | _ => none

/-- Leftmost scan driver carrying the previous character for `\b`. -/
def scanWithPrev (m : Option Char → List Char → Option α) :
    Option Char → List Char → Option α
  | _, [] => none
  | prev, c :: rest =>
    match m prev (c :: rest) with
    | some v => some v
    | none => scanWithPrev m (some c) rest

/-- `re.search(r"\bINV(?:OICE)?\s*#?\s*([A-Z0-9\-]{6,})\b", text, re.I)`,
returning group 1. -/
def searchInvLabel (s : String) : Option String :=
  (scanWithPrev matchLabelAt none s.data).map (fun l => ⟨l⟩)

/-- One attempt of `\b(\d{6,9}-\d{2})\b` at a fixed position.  The greedy
`\d{6,9}` can only succeed on the full digit run (any shorter take is
followed by another digit, not `-`), so no shrink loop is needed. -/
def matchDigitPatAt (prev : Option Char) (l : List Char) : Option (List Char) :=
  if (match prev with | some p => isWordChar p | none => false) then none
  else
    let run := l.takeWhile Char.isDigit
    let d := run.length
    if 6 ≤ d ∧ d ≤ 9 then
      match l.drop d with
      | '-' :: a :: b :: rest2 =>
        if a.isDigit ∧ b.isDigit ∧ boundaryAfter b rest2 then
          some (run ++ ['-', a, b])
        else none
      | _ => none
    else none

/-- `re.search(r"\b(\d{6,9}-\d{2})\b", text)`, returning group 1. -/
def searchDigitPat (s : String) : Option String :=
  (scanWithPrev matchDigitPatAt none s.data).map (fun l => ⟨l⟩)

/-- Exactly `n` digits, returning the digit characters and the rest. -/
def takeDigits : Nat → List Char → Option (List Char × List Char)
  | 0, l => some ([], l)
  | n + 1, c :: rest =>
    if c.isDigit then
      (takeDigits n rest).map (fun p => (c :: p.1, p.2))
    else none
  | _ + 1, [] => none

/-- One attempt of `(\d{4}-\d{2}-\d{2})` (no boundaries) at a position. -/
def matchIsoAt (l : List Char) : Option (List Char) :=
  match takeDigits 4 l with
  | some (y, '-' :: r1) =>
    match takeDigits 2 r1 with
    | some (m, '-' :: r2) =>
      match takeDigits 2 r2 with
      | some (d, _) => some (y ++ ['-'] ++ m ++ ['-'] ++ d)
      | none => none
    | _ => none
  | _ => none

/-- Leftmost scan for a position-only matcher (no `\b` in the pattern). -/
def scanPlain (m : List Char → Option α) : List Char → Option α
  | [] => none
  | c :: rest =>
    match m (c :: rest) with
    | some v => some v
    | none => scanPlain m rest

/-- `re.search(r"(\d{4}-\d{2}-\d{2})", text)`, returning group 1. -/
def searchIso (s : String) : Option String :=
  (scanPlain matchIsoAt s.data).map (fun l => ⟨l⟩)

/-- One attempt of `(\d{2}/\d{2}/\d{2,4})`: the trailing `{2,4}` is greedy
and final, so it takes up to four digits and needs at least two. -/
def matchSlashAt (l : List Char) : Option (List Char) :=
  match takeDigits 2 l with
  | some (m, '/' :: r1) =>
    match takeDigits 2 r1 with
    | some (d, '/' :: r2) =>
      let yrun := (r2.takeWhile Char.isDigit).take 4
      if 2 ≤ yrun.length then some (m ++ ['/'] ++ d ++ ['/'] ++ yrun) else none
    | _ => none
  | _ => none

/-- `re.search(r"(\d{2}/\d{2}/\d{2,4})", text)`, returning group 1. -/
def searchSlash (s : String) : Option String :=
  (scanPlain matchSlashAt s.data).map (fun l => ⟨l⟩)

/-- One attempt of `_(20\d{2})(\d{2})(\d{2})_` at a position, returning the
three captured groups. -/
def matchUnderDateAt (l : List Char) : Option (String × String × String) :=
  match l with
  | '_' :: '2' :: '0' :: a :: b :: c :: d :: e :: f :: '_' :: _ =>
    if a.isDigit ∧ b.isDigit ∧ c.isDigit ∧ d.isDigit ∧ e.isDigit ∧ f.isDigit then
      some (⟨['2', '0', a, b]⟩, ⟨[c, d]⟩, ⟨[e, f]⟩)
    else none
  | _ => none

/-- `re.search(r"_(20\d{2})(\d{2})(\d{2})_", fname)`, returning the groups. -/
def searchUnderDate (s : String) : Option (String × String × String) :=
  scanPlain matchUnderDateAt s.data

/-! ## `norm_date` (model of `datetime.strptime` for the four source formats)

CPython `_strptime` turns a format into a regex that must match the whole
input: `%Y` is exactly four digits, `%y` exactly two (00-68 maps to 20xx,
69-99 to 19xx), `%m` is `1[0-2]|0[1-9]|[1-9]`, `%d` is
`3[01]|[12]\d|0[1-9]|[1-9]` (alternatives tried in this order, with
backtracking), and `%b` is a case-insensitive month abbreviation.  The
resulting triple must also construct a valid `datetime` (calendar-valid day,
year at least 1); `strftime("%Y-%m-%d")` zero-pads month and day to two
digits and prints the year unpadded (glibc behaviour for years below 1000).
-/

/-- Numeric value of a digit character. -/
def dval (c : Char) : Nat := c.toNat - '0'.toNat

/-- First alternative of a backtracking list that lets the continuation
succeed. -/
def pickFirst (alts : List α) (k : α → Option β) : Option β :=
  match alts with
  | [] => none
  | a :: rest =>
    match k a with
    | some v => some v
    | none => pickFirst rest k

/-- The `%m` alternatives `1[0-2]|0[1-9]|[1-9]`, in regex order. -/
def monthAlts (l : List Char) : List (Nat × List Char) :=
  let a1 := match l with
    | '1' :: c :: rest => if '0' ≤ c ∧ c ≤ '2' then [(10 + dval c, rest)] else []
    | _ => []
  let a2 := match l with
    | '0' :: c :: rest => if '1' ≤ c ∧ c ≤ '9' then [(dval c, rest)] else []
    | _ => []
  let a3 := match l with
    | c :: rest => if '1' ≤ c ∧ c ≤ '9' then [(dval c, rest)] else []
    | _ => []
  a1 ++ a2 ++ a3

/-- The `%d` alternatives `3[01]|[12]\d|0[1-9]|[1-9]`, in regex order. -/
def dayAlts (l : List Char) : List (Nat × List Char) :=
  let a1 := match l with
    | '3' :: c :: rest => if c = '0' ∨ c = '1' then [(30 + dval c, rest)] else []
    | _ => []
  let a2 := match l with
    | c :: c2 :: rest =>
      if (c = '1' ∨ c = '2') ∧ c2.isDigit then [(10 * dval c + dval c2, rest)] else []
    | _ => []
  let a3 := match l with
    | '0' :: c :: rest => if '1' ≤ c ∧ c ≤ '9' then [(dval c, rest)] else []
    | _ => []
  let a4 := match l with
    | c :: rest => if '1' ≤ c ∧ c ≤ '9' then [(dval c, rest)] else []
    | _ => []
  a1 ++ a2 ++ a3 ++ a4

/-- Exactly `n` digits as a number (`%Y` with `n = 4`, `%y` with `n = 2`). -/
def fixedDigits (n : Nat) (l : List Char) : Option (Nat × List Char) :=
  (takeDigits n l).map (fun p => (p.1.foldl (fun acc c => 10 * acc + dval c) 0, p.2))

/-- `%b`: case-insensitive three-letter month abbreviation. -/
def monthAbbrev (l : List Char) : Option (Nat × List Char) :=
  match l with
  | a :: b :: c :: rest =>
    let w : List Char := [a.toLower, b.toLower, c.toLower]
    let tbl : List (List Char × Nat) :=
      [(['j','a','n'], 1), (['f','e','b'], 2), (['m','a','r'], 3), (['a','p','r'], 4),
       (['m','a','y'], 5), (['j','u','n'], 6), (['j','u','l'], 7), (['a','u','g'], 8),
       (['s','e','p'], 9), (['o','c','t'], 10), (['n','o','v'], 11), (['d','e','c'], 12)]
    match tbl.find? (fun p => p.1 = w) with
    | some p => some (p.2, rest)
    | none => none
  | _ => none

/-- Gregorian leap year. -/
def isLeap (y : Nat) : Bool := y % 4 = 0 ∧ (y % 100 ≠ 0 ∨ y % 400 = 0)

/-- Days in a month (month is 1-12 by construction). -/
def daysInMonth (y m : Nat) : Nat :=
  if m = 2 then (if isLeap y then 29 else 28)
  else if m = 4 ∨ m = 6 ∨ m = 9 ∨ m = 11 then 30
  else 31

/-- `datetime(y, m, d)` succeeds: year at least `MINYEAR = 1`, calendar-valid
day. -/
def validYmd (y m d : Nat) : Bool := 1 ≤ y ∧ 1 ≤ d ∧ d ≤ daysInMonth y m

/-- Full-string match of `%Y-%m-%d`. -/
def tryFmtIso (l : List Char) : Option (Nat × Nat × Nat) :=
  match fixedDigits 4 l with
  | some (y, '-' :: r1) =>
    pickFirst (monthAlts r1) (fun p =>
      match p.2 with
      | '-' :: r2 =>
        pickFirst (dayAlts r2) (fun q =>
          if q.2 = [] then some (y, p.1, q.1) else none)
      | _ => none)
  | _ => none

/-- Full-string match of `%m/%d/%Y`. -/
def tryFmtMdy4 (l : List Char) : Option (Nat × Nat × Nat) :=
  pickFirst (monthAlts l) (fun p =>
    match p.2 with
    | '/' :: r1 =>
      pickFirst (dayAlts r1) (fun q =>
        match q.2 with
        | '/' :: r2 =>
          match fixedDigits 4 r2 with
          | some (y, []) => some (y, p.1, q.1)
          | _ => none
        | _ => none)
    | _ => none)

/-- Full-string match of `%m/%d/%y` with the two-digit-year pivot. -/
def tryFmtMdy2 (l : List Char) : Option (Nat × Nat × Nat) :=
  pickFirst (monthAlts l) (fun p =>
    match p.2 with
    | '/' :: r1 =>
      pickFirst (dayAlts r1) (fun q =>
        match q.2 with
        | '/' :: r2 =>
          match fixedDigits 2 r2 with
          | some (y, []) => some ((if y ≤ 68 then 2000 + y else 1900 + y), p.1, q.1)
          | _ => none
        | _ => none)
    | _ => none)

/-- Full-string match of `%d-%b-%Y`. -/
def tryFmtDbY (l : List Char) : Option (Nat × Nat × Nat) :=
  pickFirst (dayAlts l) (fun q =>
    match q.2 with
    | '-' :: r1 =>
      match monthAbbrev r1 with
      | some (m, '-' :: r2) =>
        match fixedDigits 4 r2 with
        | some (y, []) => some (y, m, q.1)
        | _ => none
      | _ => none
    | _ => none)

/-- Decimal digits of a natural number (no padding). -/
def natChars (n : Nat) : List Char := Nat.toDigits 10 n

/-- Zero-pad to two characters (`%m` and `%d` in `strftime`). -/
def pad2 (n : Nat) : List Char :=
  let d := natChars n
  List.replicate (2 - d.length) '0' ++ d

/-- `strftime("%Y-%m-%d")` on a parsed triple. -/
def fmtIsoDate (y m d : Nat) : String :=
  ⟨natChars y ++ ['-'] ++ pad2 m ++ ['-'] ++ pad2 d⟩

/-- `norm_date` (`src/main.py` lines 28-35): try the four accepted formats in
order; a parse that matches but is not a valid calendar date raises inside
`strptime` and falls through to the next format; return ISO text or empty. -/
def norm_date (s : String) : String :=
  if s = "" then ""
  else
    let cands := [tryFmtIso s.data, tryFmtMdy4 s.data, tryFmtMdy2 s.data, tryFmtDbY s.data]
    let firstValid := cands.foldl (fun acc c =>
      match acc with
      | some v => some v
      | none =>
        match c with
        | some (y, m, d) => if validYmd y m d then some (y, m, d) else none
        | none => none) none
    match firstValid with
    | some (y, m, d) => fmtIsoDate y m d
    | none => ""

/-! ## Header-field inference (`invnum_guess`, `invdate_guess`, `supplier_guess`) -/

/-- `invnum_guess` (`src/main.py` lines 37-42): the `INVOICE #` label
pattern, then the digit pattern, then the file base name without its
extension. -/
def invnum_guess (text fname : String) : String :=
  match searchInvLabel text with
  | some v => v
  | none =>
    match searchDigitPat text with
    | some v => v
    | none => baseNoExt fname

/-- `invdate_guess` (`src/main.py` lines 44-53): an ISO match is returned
directly; else a slash-date match is passed through `norm_date` and that
result is returned as is (even when normalization yields the empty string);
else the `_YYYYMMDD_` filename pattern is formatted; else empty. -/
def invdate_guess (text fname : String) : String :=
  match searchIso text with
  | some v => v
  | none =>
    match searchSlash text with
    | some v => norm_date v
    | none =>
      match searchUnderDate fname with
      | some (y, mm, dd) => y ++ "-" ++ mm ++ "-" ++ dd
      | none => ""

/-- Helper of `supplier_guess`: first stripped line of length at least
three, truncated to sixty characters. -/
def supplierFirstLine : List (List Char) → String
  | [] => ""
  | ln :: rest =>
    let t := stripChars ln
    if 3 ≤ t.length then ⟨t.take 60⟩ else supplierFirstLine rest

/-- `supplier_guess` (`src/main.py` lines 55-60). -/
def supplier_guess (text : String) : String :=
  supplierFirstLine (splitNl text.data)

/-! ## Data model of the LLM normalization result -/

/-- One entry of the `lines` array of the LLM JSON.  The numeric fields are
arbitrary JSON values in the source, read through
`int(str(v).replace(",", ""))` / `float(str(v).replace(",", ""))` inside a
`try/except`; each is modelled by its parse outcome: `some n` when the
conversion succeeds with value `n`, `none` when it raises. -/
structure AILine where
  item_code : String
  item_name : String
  quantity : Option Int
  unit_price : Option ℚ
  line_total : Option ℚ
deriving DecidableEq, Repr

/-- The LLM JSON object after `setdefault` has filled the four keys
(`call_openai_normalize` lines 141-144). -/
structure AIDict where
  invoice_number : String
  invoice_date : String
  supplier : String
  lines : List AILine
deriving DecidableEq, Repr

/-! ## `call_openai_normalize` (`src/main.py` lines 100-151)

One loop iteration makes one HTTP exchange; its outcome, as seen by the
function, is supplied by the environment as a stream `Nat → Attempt`:

* `rateLimited`: status 429, handled by sleeping and `continue`;
* `exn msg`: any exception inside the `try` block (connection error,
  `raise_for_status`, missing response fields, `json.loads` failure on the
  brace-truncated content), carrying the Python error description
  `f"{type(e).__name__}: {e}"`;
* `ok partial`: a decoded JSON object, with `none` for each of the four
  keys the object lacks (the `setdefault` defaults apply).

Timing (`_throttle`, `time.sleep`, backoff arithmetic) has no effect on the
returned value and is not modelled.
-/

/-- A JSON object decoded from the response, before `setdefault`. -/
structure RawNorm where
  invoice_number : Option String
  invoice_date : Option String
  supplier : Option String
  lines : Option (List AILine)
deriving DecidableEq, Repr

/-- One HTTP exchange outcome of the normalizer. -/
inductive Attempt where
  | rateLimited
  | exn (msg : String)
  | ok (raw : RawNorm)
deriving DecidableEq, Repr

/-- The dictionary `call_openai_normalize` returns: the four schema keys
plus the optional `error` tag of the exception-exhaustion path. -/
structure NormResult where
  invoice_number : String
  invoice_date : String
  supplier : String
  lines : List AILine
  error : Option String
deriving DecidableEq, Repr

/-- `data.setdefault(...)` for the four keys, then return (lines 140-145). -/
def applyDefaults (raw : RawNorm) : NormResult :=
  { invoice_number := raw.invoice_number.getD ""
    invoice_date := raw.invoice_date.getD ""
    supplier := raw.supplier.getD ""
    lines := raw.lines.getD []
    error := none }

/-- The retry loop of `call_openai_normalize`, over the list of outcomes of
the remaining iterations.  A 429 consumes an iteration and continues; an
exception on the last iteration (`attempt == max_retries - 1`) returns the
empty structure tagged with the error, otherwise it sleeps and continues;
success returns the decoded object with defaults applied; when all
iterations are spent the loop falls through to the untagged empty
structure (line 151). -/
def callLoop : List Attempt → NormResult
  | [] => ⟨"", "", "", [], none⟩
  | a :: rest =>
    match a with
    | .rateLimited => callLoop rest
    | .exn msg => if rest.isEmpty then ⟨"", "", "", [], some msg⟩ else callLoop rest
    | .ok raw => applyDefaults raw

/-- `max_retries` default of `call_openai_normalize`. -/
def maxRetries : Nat := 5

/-- `call_openai_normalize` over an outcome stream: the loop body runs at
most `max_retries` times, one exchange per iteration. -/
def call_openai_normalize (att : Nat → Attempt) : NormResult :=
  callLoop ((List.range maxRetries).map att)

/-! ## The ingest pipeline (`src/main.py` lines 176-336)

Environment model: each uploaded file either fails to open as a ZIP
(`zipfile.BadZipFile`), fails while being read (any other exception of the
per-file `try`), or enumerates a list of entries.  Each entry carries its
archive path; for entries with a `.pdf` suffix the PDF either fails to open
in `fitz` or yields the sampled text block (`doc_text_sample`, a property
of the external PDF library) together with the `AIDict` the normalization
call produced for it.  `OPENAI_API_KEY`/Supabase presence and the outcome
of the remote-store writes are configuration. -/

/-- What one `.pdf` archive entry yields. -/
inductive PdfOutcome where
  | openFail (msg : String)
  | opened (text : String) (ai : AIDict)
deriving DecidableEq, Repr

/-- One archive entry: its path inside the ZIP and, when it is a PDF, its
outcome. -/
structure ZipEntry where
  name : String
  pdf : PdfOutcome
deriving DecidableEq, Repr

/-- One uploaded file. -/
inductive UploadFile where
  | badZip (fname : String)
  | zipReadFail (fname : String) (msg : String)
  | archive (fname : String) (entries : List ZipEntry)
deriving DecidableEq, Repr

/-- Process-level configuration and remote-store behaviour. -/
structure Config where
  openaiEnabled : Bool
  sbEnabled : Bool
  upsertRaises : Bool
  insertRaises : Bool
deriving DecidableEq, Repr

/-- One element of `parsed_lines` (lines 236-246). -/
structure Row where
  supplier : String
  invoice_number : String
  invoice_date : String
  item_code : String
  item_name : String
  quantity : Int
  unit_price : ℚ
  line_total : ℚ
  file_name : String
deriving DecidableEq, Repr

/-- One element of `invoices_rows` (lines 252-259); `invoice_date` is kept
as a string, the `or None` applying only to the persisted JSON value. -/
structure InvRow where
  supplier : String
  invoice_number : String
  invoice_date : String
  lines : Int
  total_value : ℚ
  file_name : String
deriving DecidableEq, Repr

/-- The accumulator of the ingest loop. -/
structure IngestState where
  parsed_lines : List Row
  invoices_rows : List InvRow
  errors : List String
  seen : List String
  files_count : Nat
deriving DecidableEq, Repr

/-- The initial accumulator (lines 178-182). -/
def initState : IngestState := ⟨[], [], [], [], 0⟩

/-- The heuristic fallback dictionary built when the AI is disabled or
returned no lines (lines 205-211). -/
def heuristicDict (text name : String) : AIDict :=
  { invoice_number := invnum_guess text name
    invoice_date := invdate_guess text name
    supplier := supplier_guess text
    lines := [] }

/-- The dictionary actually used for a PDF: the AI result when the key is
configured and it has lines, else the heuristic fallback (`not ai or not
ai.get("lines")`). -/
def aiEffective (cfg : Config) (text name : String) (ai : AIDict) : AIDict :=
  if cfg.openaiEnabled ∧ ai.lines ≠ [] then ai else heuristicDict text name

/-- The inferred invoice number of a PDF (line 213). -/
def invNoOf (cfg : Config) (text name : String) (ai : AIDict) : String :=
  orS (aiEffective cfg text name ai).invoice_number (invnum_guess text name)

/-- The inferred invoice date of a PDF (line 214). -/
def invDateOf (cfg : Config) (text name : String) (ai : AIDict) : String :=
  orS (norm_date (aiEffective cfg text name ai).invoice_date) (invdate_guess text name)

/-- The inferred supplier of a PDF (line 215). -/
def suppOf (cfg : Config) (text name : String) (ai : AIDict) : String :=
  orS (aiEffective cfg text name ai).supplier (supplier_guess text)

/-- One `parsed_lines` row built from one AI line (lines 226-246): each
numeric conversion failure defaults the value to zero, prices are rounded
to two decimals, the item code is stripped and lowercased. -/
def mkRow (supp invNo invDate fileBase : String) (ln : AILine) : Row :=
  { supplier := supp
    invoice_number := invNo
    invoice_date := invDate
    item_code := pyLower (pyStrip ln.item_code)
    item_name := pyStrip ln.item_name
    quantity := ln.quantity.getD 0
    unit_price := round2 (ln.unit_price.getD 0)
    line_total := round2 (ln.line_total.getD 0)
    file_name := fileBase }

/-- `total_qty` accumulated over the AI lines (line 247). -/
def totQty (lns : List AILine) : Int := (lns.map (fun l => l.quantity.getD 0)).sum

/-- `total_val` accumulated over the AI lines (line 248): the raw
`line_total` values, before the per-row rounding. -/
def totVal (lns : List AILine) : ℚ := (lns.map (fun l => l.line_total.getD 0)).sum

/-- The `parsed_lines` rows contributed by one first-seen PDF (the loop of
lines 225-248): one row per AI line, none discarded. -/
def pdfRows (cfg : Config) (text name : String) (ai : AIDict) : List Row :=
  (aiEffective cfg text name ai).lines.map
    (mkRow (suppOf cfg text name ai) (invNoOf cfg text name ai)
      (invDateOf cfg text name ai) (pyBasename name))

/-- The `invoices_rows` contribution of one first-seen PDF (lines 250-259):
one record when the accumulated totals pass the `total_qty > 0 or
total_val > 0` gate, none otherwise. -/
def pdfInvRows (cfg : Config) (text name : String) (ai : AIDict) : List InvRow :=
  if 0 < totQty (aiEffective cfg text name ai).lines
      ∨ 0 < totVal (aiEffective cfg text name ai).lines then
    [{ supplier := suppOf cfg text name ai
       invoice_number := invNoOf cfg text name ai
       invoice_date := invDateOf cfg text name ai
       lines := totQty (aiEffective cfg text name ai).lines
       total_value := round2 (totVal (aiEffective cfg text name ai).lines)
       file_name := pyBasename name }]
  else []

/-- Process one archive entry (lines 188-261): skip non-PDF names, count
the PDF, record an open failure, otherwise run normalization and the
fallbacks, deduplicate on the inferred invoice number, and append the
entry's parsed rows and gated invoice record. -/
def processEntry (cfg : Config) (st : IngestState) (e : ZipEntry) : IngestState :=
  if ¬ isPdfName e.name then st
  else
    let st := { st with files_count := st.files_count + 1 }
    match e.pdf with
    | .openFail msg =>
      { st with errors := st.errors ++ [e.name ++ ": pdf open failed " ++ msg] }
    | .opened text ai0 =>
      if st.seen.contains (invNoOf cfg text e.name ai0) then st
      else
        { st with
          seen := st.seen ++ [invNoOf cfg text e.name ai0]
          parsed_lines := st.parsed_lines ++ pdfRows cfg text e.name ai0
          invoices_rows := st.invoices_rows ++ pdfInvRows cfg text e.name ai0 }

/-- Process one uploaded file (lines 184-265): archive open and read
failures append one error string and leave the rest of the state alone. -/
def processFile (cfg : Config) (st : IngestState) (f : UploadFile) : IngestState :=
  match f with
  | .badZip fname => { st with errors := st.errors ++ [fname ++ ": not a valid zip file"] }
  | .zipReadFail fname msg =>
    { st with errors := st.errors ++ [fname ++ ": zip read failed " ++ msg] }
  | .archive _ entries => entries.foldl (processEntry cfg) st

/-- The extraction loop of `ingest` over all uploaded files. -/
def ingestCore (cfg : Config) (files : List UploadFile) : IngestState :=
  files.foldl (processFile cfg) initState

/-! ## Supabase write helpers (`src/main.py` lines 154-169)

`sb_upsert_chunked`/`sb_insert_chunked` return immediately when the client
is absent or the row list empty; otherwise they issue chunked requests with
no exception handling, so a raising client propagates the exception.  The
chunk arithmetic does not change whether an exception escapes, which is all
the ingest-level claims observe; a raising store is modelled as failing on
the first issued request. -/

/-- `sb_upsert_chunked` and `sb_insert_chunked`, abstracted over whether
the client raises. -/
def sbWriteChunked (enabled raises : Bool) (rows : List α) (what : String) :
    Except String Unit :=
  if enabled ∧ rows.isEmpty = false then
    if raises then .error (what ++ " write raised") else .ok ()
  else .ok ()

/-! ## Rollups (`src/main.py` lines 273-322) -/

/-- Distinct values keeping first occurrences, in order: the key order of a
Python dict populated by iteration. -/
def firstDedup (seenAcc : List String) : List String → List String
  | [] => []
  | x :: xs =>
    if seenAcc.contains x then firstDedup seenAcc xs
    else x :: firstDedup (seenAcc ++ [x]) xs

/-- The distinct item codes of the batch, in first-seen order (the keys of
`by`). -/
def itemCodes (rows : List Row) : List String :=
  firstDedup [] (rows.map (fun r => r.item_code))

/-- The rows of one item code, in order. -/
def rowsFor (rows : List Row) (k : String) : List Row :=
  rows.filter (fun r => r.item_code = k)

/-- Quantity sum of one item code (`by[k]["qty"]`). -/
def qtySum (rows : List Row) (k : String) : Int :=
  ((rowsFor rows k).map (fun r => r.quantity)).sum

/-- Value sum of one item code (`by[k]["val"]`, unrounded). -/
def valSum (rows : List Row) (k : String) : ℚ :=
  ((rowsFor rows k).map (fun r => r.line_total)).sum

/-- Distinct non-empty invoice numbers of one item code (`by[k]["invs"]`). -/
def invsOf (rows : List Row) (k : String) : List String :=
  firstDedup [] (((rowsFor rows k).map (fun r => r.invoice_number)).filter (fun s => s ≠ ""))

/-- The name frequency table of one item code (`by[k]["names"]`), an
association list in insertion order counting non-empty stripped names. -/
def bumpName (l : List (String × Nat)) (nm : String) : List (String × Nat) :=
  match l with
  | [] => [(nm, 1)]
  | p :: rest => if p.1 = nm then (p.1, p.2 + 1) :: rest else p :: bumpName rest nm

/-- Name counts accumulated over a row list. -/
def nameCounts (rows : List Row) (k : String) : List (String × Nat) :=
  (rowsFor rows k).foldl (fun acc r =>
    let nm := pyStrip r.item_name
    if nm = "" then acc else bumpName acc nm) []

/-- `sorted(names.items(), key=count, reverse=True)[0][0]`: the stable
descending sort makes this the earliest-inserted name of maximal count. -/
def bestName (counts : List (String × Nat)) : String :=
  match counts with
  | [] => ""
  | c :: cs => (cs.foldl (fun acc p => if acc.2 < p.2 then p else acc) c).1

/-- Fold of the `first`/`last` date tracking (lines 283-286): empty dates
are ignored; comparison is lexicographic on the ISO strings. -/
def firstDate (rows : List Row) (k : String) : String :=
  (rowsFor rows k).foldl (fun acc r =>
    let d := r.invoice_date
    if d = "" then acc else if acc = "" then d else min acc d) ""

/-- Latest date of one item code. -/
def lastDate (rows : List Row) (k : String) : String :=
  (rowsFor rows k).foldl (fun acc r =>
    let d := r.invoice_date
    if d = "" then acc else if acc = "" then d else max acc d) ""

/-- `int(...)` of a `YYYY-...` component; the source can only receive
all-digit components here (dates are produced by `norm_date` or the digit
patterns), modelled with a zero default. -/
def compNat (s : String) : Nat := (String.toNat? s).getD 0

/-- `months_between` (lines 288-291). -/
def months_between (a b : String) : Nat :=
  if a = "" ∨ b = "" then 1
  else
    let ay : Int := compNat ((a.splitOn "-").headD "")
    let am : Int := compNat ((a.splitOn "-").drop 1 |>.headD "")
    let by_ : Int := compNat ((b.splitOn "-").headD "")
    let bm : Int := compNat ((b.splitOn "-").drop 1 |>.headD "")
    (max 1 ((by_ - ay) * 12 + (bm - am) + 1)).toNat

/-- One row of `master` (lines 293-306). -/
structure MasterRow where
  item_code : String
  item_name : String
  invoices : Nat
  frequency_per_month : ℚ
  total_quantity : Int
  total_value : ℚ
  avg_price : ℚ
  last_invoice_date : String
deriving DecidableEq, Repr

/-- The `master` row of one item code. -/
def masterRowFor (rows : List Row) (k : String) : MasterRow :=
  let invs := (invsOf rows k).length
  let span := months_between (firstDate rows k) (lastDate rows k)
  { item_code := k
    item_name := bestName (nameCounts rows k)
    invoices := invs
    frequency_per_month := round2 ((invs : ℚ) / (span : ℚ))
    total_quantity := qtySum rows k
    total_value := round2 (valSum rows k)
    avg_price := if qtySum rows k = 0 then 0 else round2 (valSum rows k / (qtySum rows k : ℚ))
    last_invoice_date := lastDate rows k }

/-- `master`, sorted by total value descending (line 307; ordering of equal
values follows the sort used here, which the claims do not observe). -/
def buildMaster (rows : List Row) : List MasterRow :=
  List.insertionSort (fun a b => b.total_value ≤ a.total_value)
    ((itemCodes rows).map (masterRowFor rows))

/-- The month key of a row (lines 311-312): the first seven characters of
the invoice date, kept only when seven characters exist. -/
def monthOf (r : Row) : Option String :=
  let m := pyTake r.invoice_date 7
  if m.length = 7 then some m else none

/-- `monthly_q[m]`. -/
def monthlyQty (rows : List Row) (m : String) : Int :=
  ((rows.filter (fun r => monthOf r = some m)).map (fun r => r.quantity)).sum

/-- `monthly_v[m]` (unrounded sum). -/
def monthlyVal (rows : List Row) (m : String) : ℚ :=
  ((rows.filter (fun r => monthOf r = some m)).map (fun r => r.line_total)).sum

/-- `sorted(monthly_q.keys())`. -/
def monthsList (rows : List Row) : List String :=
  List.insertionSort (fun a b => a ≤ b) (firstDedup [] (rows.filterMap monthOf))

/-- One row of `monthly` (lines 317-322). -/
structure MonthlyRow where
  invoice_month : String
  total_quantity : Int
  total_value : ℚ
  qty_mom_pct : Option ℚ
  val_mom_pct : Option ℚ
deriving DecidableEq, Repr

/-- The month loop (lines 316-322): `prev_q`/`prev_v` start as `None`; a
percent-change field is filled only when the previous value exists and is
non-zero. -/
def buildMonthlyGo (qf : String → Int) (vf : String → ℚ) :
    List String → Option Int → Option ℚ → List MonthlyRow
  | [], _, _ => []
  | m :: ms, pq, pv =>
    let q := qf m
    let v := round2 (vf m)
    { invoice_month := m
      total_quantity := q
      total_value := v
      qty_mom_pct :=
        match pq with
        | none => none
        | some p => if p = 0 then none else some (round3 (((q : ℚ) - (p : ℚ)) / (p : ℚ)))
      val_mom_pct :=
        match pv with
        | none => none
        | some p => if p = 0 then none else some (round3 ((v - p) / p)) }
    :: buildMonthlyGo qf vf ms (some q) (some v)

/-- `monthly`. -/
def buildMonthly (rows : List Row) : List MonthlyRow :=
  buildMonthlyGo (monthlyQty rows) (monthlyVal rows) (monthsList rows) none none

/-- The JSON body of the ingest response (lines 324-336). -/
structure IngestResponse where
  parsed_lines : List Row
  master : List MasterRow
  monthly : List MonthlyRow
  files_processed : Nat
  errors : List String
  sbInvoicesRows : Nat
  sbItemsRows : Nat
deriving DecidableEq, Repr

/-- The response built from a finished extraction state. -/
def mkResponse (st : IngestState) : IngestResponse :=
  { parsed_lines := st.parsed_lines
    master := buildMaster st.parsed_lines
    monthly := buildMonthly st.parsed_lines
    files_processed := st.files_count
    errors := st.errors
    sbInvoicesRows := st.invoices_rows.length
    sbItemsRows := st.parsed_lines.length }

/-- `ingest` (lines 176-336): run the extraction loop, then the two
Supabase writes with no exception handling around them (lines 267-271), then
build and return the response; a raising write escapes the endpoint as an
exception. -/
def ingest (cfg : Config) (files : List UploadFile) : Except String IngestResponse :=
  match sbWriteChunked cfg.sbEnabled cfg.upsertRaises
      (ingestCore cfg files).invoices_rows "invoices" with
  | .error e => .error e
  | .ok _ =>
    match sbWriteChunked cfg.sbEnabled cfg.insertRaises
        (ingestCore cfg files).parsed_lines "items" with
    | .error e => .error e
    | .ok _ => .ok (mkResponse (ingestCore cfg files))

/-! # Claims -/

/-! ## C4: invoice-number inference order -/

/-- C4 (counterexample): on a text containing both patterns, the source
tries the `INVOICE #` label pattern first and returns its capture, not the
`######-##` digit-pattern capture the claimed order would produce. -/
theorem C4_counterexample :
    searchDigitPat "INVOICE # ABC12345 and 123456-78" = some "123456-78"
    ∧ invnum_guess "INVOICE # ABC12345 and 123456-78" "f.pdf" = "ABC12345"
    ∧ ("ABC12345" : String) ≠ "123456-78" := by
  refine ⟨by decide, by decide, by decide⟩

/-- C4 (amended): `invnum_guess` tries the rules in the order label
pattern, then digit pattern, then base name without extension,
short-circuiting on first success, and always returns a string. -/
theorem C4_invnum_rule_order (text fname : String) :
    (∀ v, searchInvLabel text = some v → invnum_guess text fname = v)
    ∧ (searchInvLabel text = none →
        ∀ v, searchDigitPat text = some v → invnum_guess text fname = v)
    ∧ (searchInvLabel text = none → searchDigitPat text = none →
        invnum_guess text fname = baseNoExt fname) := by
  unfold invnum_guess
  refine ⟨fun v hv => ?_, fun h1 v hv => ?_, fun h1 h2 => ?_⟩
  · rw [hv]
  · rw [h1, hv]
  · rw [h1, h2]

/-- C4 witness: the amended order at concrete inputs. -/
theorem C4_witness :
    searchInvLabel "no patterns here" = none
    ∧ invnum_guess "no patterns here" "dir/inv_001.pdf" = baseNoExt "dir/inv_001.pdf" :=
  ⟨by decide, (C4_invnum_rule_order "no patterns here" "dir/inv_001.pdf").2.2
      (by decide) (by decide)⟩

/-! ## C5: invoice-date inference order -/

/-- C5 (counterexample): the slash-date rule short-circuits on a regex
match even when normalization fails, so the filename rule is never tried:
here rule 2 matches `99/99/2023`, `norm_date` rejects it, the filename
carries `_20230115_`, and the result is the empty string rather than
`2023-01-15`. -/
theorem C5_counterexample :
    searchIso "Date: 99/99/2023" = none
    ∧ searchSlash "Date: 99/99/2023" = some "99/99/2023"
    ∧ norm_date "99/99/2023" = ""
    ∧ searchUnderDate "inv_20230115_x.pdf" = some ("2023", "01", "15")
    ∧ invdate_guess "Date: 99/99/2023" "inv_20230115_x.pdf" = "" := by
  refine ⟨by decide, by decide, by decide, by decide, by decide⟩

/-- C5 (amended): `invdate_guess` tries ISO text pattern, slash-delimited
text pattern, `_YYYYMMDD_` filename pattern, then empty — but the
short-circuit is on the slash *pattern match*: when the matched slash date
fails normalization the function returns the empty string without trying
the filename rule. -/
theorem C5_invdate_rule_order (text fname : String) :
    (∀ v, searchIso text = some v → invdate_guess text fname = v)
    ∧ (searchIso text = none →
        ∀ v, searchSlash text = some v → invdate_guess text fname = norm_date v)
    ∧ (searchIso text = none → searchSlash text = none →
        ∀ y mm dd, searchUnderDate fname = some (y, mm, dd) →
        invdate_guess text fname = y ++ "-" ++ mm ++ "-" ++ dd)
    ∧ (searchIso text = none → searchSlash text = none → searchUnderDate fname = none →
        invdate_guess text fname = "") := by
  unfold invdate_guess
  refine ⟨fun v hv => ?_, fun h1 v hv => ?_, fun h1 h2 y mm dd hv => ?_,
    fun h1 h2 h3 => ?_⟩
  · rw [hv]
  · rw [h1, hv]
  · rw [h1, h2, hv]
  · rw [h1, h2, h3]

/-- C5 witness: the amended slash branch at concrete inputs, in a case
where normalization succeeds. -/
theorem C5_witness :
    searchIso "paid 12/31/99 then" = none
    ∧ invdate_guess "paid 12/31/99 then" "a.pdf" = norm_date "12/31/99" :=
  ⟨by decide, (C5_invdate_rule_order "paid 12/31/99 then" "a.pdf").2.1
      (by decide) "12/31/99" (by decide)⟩

/-! ## C3: the normalization delegate never raises -/

/-- C3 (counterexample): when the retry budget is exhausted purely by
rate-limit responses, the returned structure is empty but carries no error
tag, against the claim that every failure is tagged with a description of
the last error. -/
theorem C3_counterexample :
    call_openai_normalize (fun _ => Attempt.rateLimited)
      = ⟨"", "", "", [], none⟩ := rfl

/-- C3 (amended): the call is total (never raises) and always yields a
structure with the four schema keys; when no exchange succeeds it is the
empty structure, tagged with the last error exactly when the final
iteration's exchange raised an exception, and untagged when the budget was
exhausted by rate-limit responses. -/
theorem C3_failure_returns_empty_structure (att : Nat → Attempt)
    (h : ∀ i, i < maxRetries → ∀ raw, att i ≠ Attempt.ok raw) :
    call_openai_normalize att =
      ⟨"", "", "", [],
        match att 4 with
        | .exn msg => some msg
        | _ => none⟩ := by
  have h0 := h 0 (by decide)
  have h1 := h 1 (by decide)
  have h2 := h 2 (by decide)
  have h3 := h 3 (by decide)
  have h4 := h 4 (by decide)
  show callLoop ((List.range maxRetries).map att) = _
  rw [show List.range maxRetries = [0, 1, 2, 3, 4] from rfl]
  simp only [List.map]
  cases a0 : att 0 <;> cases a1 : att 1 <;> cases a2 : att 2 <;>
    cases a3 : att 3 <;> cases a4 : att 4 <;>
    first
      | exact absurd a0 (h0 _)
      | exact absurd a1 (h1 _)
      | exact absurd a2 (h2 _)
      | exact absurd a3 (h3 _)
      | exact absurd a4 (h4 _)
      | simp [callLoop, a4, List.isEmpty]

/-- C3 witness: exception on every exchange yields the tagged empty
structure. -/
theorem C3_witness :
    call_openai_normalize (fun _ => Attempt.exn "boom")
      = ⟨"", "", "", [], some "boom"⟩ :=
  C3_failure_returns_empty_structure (fun _ => Attempt.exn "boom")
    (fun _ _ _ h => Attempt.noConfusion h)

/-! ## C8: monthly rollup -/

/-- The months of the built rollup are exactly the computed month keys. -/
theorem buildMonthlyGo_map_month (qf : String → Int) (vf : String → ℚ) :
    ∀ ms pq pv, (buildMonthlyGo qf vf ms pq pv).map (fun x => x.invoice_month) = ms
  | [], _, _ => rfl
  | m :: ms, pq, pv => by
    simp [buildMonthlyGo, buildMonthlyGo_map_month qf vf ms]

/-- Length of the built rollup. -/
theorem buildMonthlyGo_length (qf : String → Int) (vf : String → ℚ)
    (ms : List String) (pq : Option Int) (pv : Option ℚ) :
    (buildMonthlyGo qf vf ms pq pv).length = ms.length := by
  have h := congrArg List.length (buildMonthlyGo_map_month qf vf ms pq pv)
  simpa using h

/-- In the month loop, a non-first row's percent-change field is `none`
exactly when the previous row's total is zero. -/
theorem buildMonthlyGo_null (qf : String → Int) (vf : String → ℚ) :
    ∀ (ms : List String) (pq : Option Int) (pv : Option ℚ) (i : Nat)
      (h : i + 1 < (buildMonthlyGo qf vf ms pq pv).length),
      (((buildMonthlyGo qf vf ms pq pv).get ⟨i + 1, h⟩).qty_mom_pct = none
        ↔ ((buildMonthlyGo qf vf ms pq pv).get ⟨i, by omega⟩).total_quantity = 0)
      ∧ (((buildMonthlyGo qf vf ms pq pv).get ⟨i + 1, h⟩).val_mom_pct = none
        ↔ ((buildMonthlyGo qf vf ms pq pv).get ⟨i, by omega⟩).total_value = 0) := by
  intro ms
  induction ms with
  | nil => intro pq pv i h; simp [buildMonthlyGo] at h
  | cons m ms ih =>
    intro pq pv i h
    cases i with
    | zero =>
      cases ms with
      | nil => simp [buildMonthlyGo] at h
      | cons m2 ms2 =>
        by_cases hq : qf m = 0 <;> by_cases hv : round2 (vf m) = 0 <;>
          simp [buildMonthlyGo, List.get, hq, hv]
    | succ j =>
      have h' : j + 1 < (buildMonthlyGo qf vf ms (some (qf m)) (some (round2 (vf m)))).length := by
        rw [buildMonthlyGo_length] at h ⊢
        simpa using Nat.lt_of_succ_lt_succ h
      have hih := ih (some (qf m)) (some (round2 (vf m))) j h'
      simpa [buildMonthlyGo, List.get] using hih

/-- A row whose invoice date is shorter than seven characters has no month
key. -/
theorem monthOf_eq_none (r : Row) (h : r.invoice_date.length < 7) :
    monthOf r = none := by
  have hd : r.invoice_date.data.length < 7 := h
  have hne : (pyTake r.invoice_date 7).length ≠ 7 := by
    show (r.invoice_date.data.take 7).length ≠ 7
    rw [List.length_take]
    omega
  unfold monthOf
  exact if_neg hne

/-- Rows without a month key do not change the monthly rollup. -/
theorem buildMonthly_skip (r : Row) (rows : List Row) (hr : monthOf r = none) :
    buildMonthly (r :: rows) = buildMonthly rows := by
  unfold buildMonthly
  have hq : monthlyQty (r :: rows) = monthlyQty rows := by
    funext m
    unfold monthlyQty
    simp [List.filter_cons, hr]
  have hv : monthlyVal (r :: rows) = monthlyVal rows := by
    funext m
    unfold monthlyVal
    simp [List.filter_cons, hr]
  have hm : monthsList (r :: rows) = monthsList rows := by
    unfold monthsList
    simp [List.filterMap_cons, hr]
  rw [hq, hv, hm]

/-- In the month loop started with no previous month, the first row's
percent-change fields are `none`. -/
theorem buildMonthlyGo_first_null (qf : String → Int) (vf : String → ℚ) :
    ∀ (ms : List String) (h0 : 0 < (buildMonthlyGo qf vf ms none none).length),
      ((buildMonthlyGo qf vf ms none none).get ⟨0, h0⟩).qty_mom_pct = none
      ∧ ((buildMonthlyGo qf vf ms none none).get ⟨0, h0⟩).val_mom_pct = none := by
  intro ms h0
  cases ms with
  | nil => simp [buildMonthlyGo] at h0
  | cons m ms => simp [buildMonthlyGo, List.get]

/-- C8 (confirmed): the monthly rollup excludes rows whose invoice date has
fewer than seven characters, lists the months in ascending order, and the
month-over-month fields are `none` exactly on the first row and on a row
whose immediate predecessor has a zero total (quantity for the quantity
field, value for the value field). -/
theorem C8_monthly_rollup :
    (∀ (r : Row) (rows : List Row), r.invoice_date.length < 7 →
      buildMonthly (r :: rows) = buildMonthly rows)
    ∧ (∀ rows : List Row, List.Sorted (fun a b : String => a ≤ b)
        ((buildMonthly rows).map (fun x => x.invoice_month)))
    ∧ (∀ (rows : List Row) (h0 : 0 < (buildMonthly rows).length),
        ((buildMonthly rows).get ⟨0, h0⟩).qty_mom_pct = none
        ∧ ((buildMonthly rows).get ⟨0, h0⟩).val_mom_pct = none)
    ∧ (∀ (rows : List Row) (i : Nat) (h : i + 1 < (buildMonthly rows).length),
        (((buildMonthly rows).get ⟨i + 1, h⟩).qty_mom_pct = none
          ↔ ((buildMonthly rows).get ⟨i, by omega⟩).total_quantity = 0)
        ∧ (((buildMonthly rows).get ⟨i + 1, h⟩).val_mom_pct = none
          ↔ ((buildMonthly rows).get ⟨i, by omega⟩).total_value = 0)) := by
  refine ⟨fun r rows h => buildMonthly_skip r rows (monthOf_eq_none r h), ?_, ?_, ?_⟩
  · intro rows
    rw [show buildMonthly rows
        = buildMonthlyGo (monthlyQty rows) (monthlyVal rows) (monthsList rows) none none
        from rfl]
    rw [buildMonthlyGo_map_month]
    exact List.sorted_insertionSort _ _
  · intro rows h0
    exact buildMonthlyGo_first_null (monthlyQty rows) (monthlyVal rows) (monthsList rows) h0
  · intro rows i h
    exact buildMonthlyGo_null (monthlyQty rows) (monthlyVal rows) (monthsList rows) none none i h

/-- Rows for the C8 witness: two usable months, the first with quantity
zero, plus one row with an unusably short date. -/
def c8row1 : Row := ⟨"s", "I1", "2023-01-05", "a", "n", 0, 1, 5, "f"⟩

/-- Second C8 witness row. -/
def c8row2 : Row := ⟨"s", "I2", "2023-02-05", "a", "n", 4, 1, 7, "f"⟩

/-- C8 witness row with a five-character date. -/
def c8rowShort : Row := ⟨"s", "I3", "23-04", "a", "n", 99, 1, 9, "f"⟩

/-- C8 witness: the theorem applied at concrete rows. -/
theorem C8_witness :
    buildMonthly (c8rowShort :: [c8row1, c8row2]) = buildMonthly [c8row1, c8row2]
    ∧ (((buildMonthly [c8row1, c8row2]).get
          ⟨1, by with_unfolding_all exact of_decide_eq_true rfl⟩).qty_mom_pct = none
        ↔ ((buildMonthly [c8row1, c8row2]).get
          ⟨0, by with_unfolding_all exact of_decide_eq_true rfl⟩).total_quantity = 0) :=
  ⟨C8_monthly_rollup.1 c8rowShort [c8row1, c8row2] (by decide),
   (C8_monthly_rollup.2.2.2 [c8row1, c8row2] 0
      (by with_unfolding_all exact of_decide_eq_true rfl)).1⟩

/-! ## C9: average price in the item rollup -/

/-- A parsed row for the C9 instances: quantity three, line total 0.10. -/
def c9row : Row := ⟨"s", "I1", "2023-01-05", "a", "n", 3, 1, 1/10, "f"⟩

/-- C9 (counterexample): the source rounds the quotient to two decimals, so
`avg_price` is 0.03 here while `total_value / total_quantity` is 1/30; the
two differ, against the claimed exact equality. -/
theorem C9_counterexample :
    itemCodes [c9row] = ["a"]
    ∧ (masterRowFor [c9row] "a").total_quantity = 3
    ∧ (masterRowFor [c9row] "a").total_value = 1/10
    ∧ (masterRowFor [c9row] "a").avg_price = 3/100
    ∧ (masterRowFor [c9row] "a").avg_price
        ≠ (masterRowFor [c9row] "a").total_value
          / ((masterRowFor [c9row] "a").total_quantity : ℚ) := by
  refine ⟨by decide, by decide, ?_, ?_, ?_⟩
  · with_unfolding_all rfl
  · with_unfolding_all rfl
  · with_unfolding_all exact of_decide_eq_true rfl

/-- C9 (amended): for every item code, `avg_price` is 0 when the quantity
sum is 0 and otherwise is the value sum divided by the quantity sum,
rounded to two decimals. -/
theorem C9_avg_price_rounded (rows : List Row) (k : String) :
    ((masterRowFor rows k).total_quantity = 0 → (masterRowFor rows k).avg_price = 0)
    ∧ ((masterRowFor rows k).total_quantity ≠ 0 →
        (masterRowFor rows k).avg_price
          = round2 (valSum rows k / (qtySum rows k : ℚ))) := by
  have hq : (masterRowFor rows k).total_quantity = qtySum rows k := rfl
  refine ⟨fun h => ?_, fun h => ?_⟩
  · rw [hq] at h
    show (if qtySum rows k = 0 then 0 else round2 (valSum rows k / (qtySum rows k : ℚ))) = 0
    rw [if_pos h]
  · rw [hq] at h
    show (if qtySum rows k = 0 then 0 else round2 (valSum rows k / (qtySum rows k : ℚ)))
      = round2 (valSum rows k / (qtySum rows k : ℚ))
    rw [if_neg h]

/-- C9 witness: the amended statement applied at the concrete row. -/
theorem C9_witness :
    (masterRowFor [c9row] "a").total_quantity ≠ 0
    ∧ (masterRowFor [c9row] "a").avg_price
        = round2 (valSum [c9row] "a" / (qtySum [c9row] "a" : ℚ)) :=
  ⟨by decide, (C9_avg_price_rounded [c9row] "a").2 (by decide)⟩

/-! ## Shape lemmas for one archive entry -/

/-- Entries without a `.pdf` suffix are skipped entirely. -/
theorem processEntry_not_pdf (cfg : Config) (st : IngestState) (e : ZipEntry)
    (h : isPdfName e.name = false) : processEntry cfg st e = st := by
  simp [processEntry, h]

/-- A PDF that fails to open contributes one error string and the file
count. -/
theorem processEntry_openFail (cfg : Config) (st : IngestState)
    (name msg : String) (h : isPdfName name = true) :
    processEntry cfg st ⟨name, .openFail msg⟩
      = { st with files_count := st.files_count + 1
                  errors := st.errors ++ [name ++ ": pdf open failed " ++ msg] } := by
  simp [processEntry, h]

/-- A PDF whose inferred invoice number was already seen contributes only
the file count. -/
theorem processEntry_dup (cfg : Config) (st : IngestState)
    (name text : String) (ai : AIDict) (h : isPdfName name = true)
    (hdup : st.seen.contains (invNoOf cfg text name ai) = true) :
    processEntry cfg st ⟨name, .opened text ai⟩
      = { st with files_count := st.files_count + 1 } := by
  have hm : invNoOf cfg text name ai ∈ st.seen := by simpa using hdup
  simp [processEntry, h, hm]

/-- A first-seen PDF registers its number and appends its parsed rows and
its gated invoice record. -/
theorem processEntry_fresh (cfg : Config) (st : IngestState)
    (name text : String) (ai : AIDict) (h : isPdfName name = true)
    (hfresh : st.seen.contains (invNoOf cfg text name ai) = false) :
    processEntry cfg st ⟨name, .opened text ai⟩
      = { st with
          files_count := st.files_count + 1
          seen := st.seen ++ [invNoOf cfg text name ai]
          parsed_lines := st.parsed_lines ++ pdfRows cfg text name ai
          invoices_rows := st.invoices_rows ++ pdfInvRows cfg text name ai } := by
  have hm : invNoOf cfg text name ai ∉ st.seen := by simpa using hfresh
  simp [processEntry, h, hm]

/-! ## Sample environments used by the concrete instances -/

/-- Configuration: AI key set, no Supabase. -/
def cfgPlain : Config := ⟨true, false, false, false⟩

/-- Configuration: AI key set, Supabase present, upsert raising. -/
def cfgSbRaise : Config := ⟨true, true, true, false⟩

/-- An AI result whose single line badly violates the tolerance band
(5 × 10.00 = 50.00, far from the stated total 200.00). -/
def aiSample : AIDict :=
  ⟨"INV1", "2023-01-02", "S", [⟨"A100", "Widget", some 5, some 10, some 200⟩]⟩

/-- One archive containing one PDF with `aiSample`. -/
def filesSample : List UploadFile :=
  [.archive "a.zip" [⟨"doc.pdf", .opened "sometext" aiSample⟩]]

/-- An AI result with one all-zero line for invoice number `N`. -/
def aiZero : AIDict := ⟨"N", "", "", [⟨"Z1", "", some 0, some 0, some 0⟩]⟩

/-- An AI result with one positive line for the same invoice number `N`. -/
def aiPos : AIDict := ⟨"N", "", "", [⟨"P1", "", some 2, some 3, some 6⟩]⟩

/-- One archive with two PDFs that infer the same invoice number, the
first all-zero, the second positive. -/
def filesDup : List UploadFile :=
  [.archive "a.zip" [⟨"d1.pdf", .opened "t1" aiZero⟩, ⟨"d2.pdf", .opened "t2" aiPos⟩]]

/-- One archive with only the all-zero PDF. -/
def filesZero : List UploadFile := [.archive "a.zip" [⟨"d1.pdf", .opened "t1" aiZero⟩]]

/-! ## C1: the LineItem invariant -/

/-- The LineItem invariant as the specification states it: positive
quantity and `abs(quantity*unit_price - line_total) ≤ 0.25 *
max(abs(line_total), 1.0)`. -/
def lineItemInvariant (q : Int) (up lt : ℚ) : Prop :=
  0 < q ∧ |(q : ℚ) * up - lt| ≤ (1 / 4) * max |lt| 1

/-- The invariant read off a parsed row. -/
def rowInvariant (r : Row) : Prop :=
  lineItemInvariant r.quantity r.unit_price r.line_total

instance (r : Row) : Decidable (rowInvariant r) := by
  unfold rowInvariant lineItemInvariant
  infer_instance

/-- C1 (counterexample): a line with quantity 5, unit price 10 and stated
total 200 fails the tolerance check, yet `ingest` appends it to
`parsed_lines` unchanged — nothing is discarded. -/
theorem C1_counterexample :
    (ingestCore cfgPlain filesSample).parsed_lines
      = [⟨"S", "INV1", "2023-01-02", "a100", "Widget", 5, 10, 200, "doc.pdf"⟩]
    ∧ ¬ rowInvariant ⟨"S", "INV1", "2023-01-02", "a100", "Widget", 5, 10, 200, "doc.pdf"⟩ := by
  constructor
  · with_unfolding_all rfl
  · with_unfolding_all exact of_decide_eq_true rfl

/-- C1 (amended): no invariant is enforced on the way into `parsed_lines`:
a first-seen PDF appends exactly one row per candidate AI line, whatever
the numeric values, with unparseable numerics defaulted to zero. -/
theorem C1_lines_never_discarded (cfg : Config) (st : IngestState)
    (name text : String) (ai : AIDict) (hpdf : isPdfName name = true)
    (hfresh : st.seen.contains (invNoOf cfg text name ai) = false) :
    (processEntry cfg st ⟨name, .opened text ai⟩).parsed_lines.length
      = st.parsed_lines.length + (aiEffective cfg text name ai).lines.length := by
  rw [processEntry_fresh cfg st name text ai hpdf hfresh]
  simp [pdfRows]

/-- C1 witness: the amended statement at the sample environment. -/
theorem C1_witness :
    (processEntry cfgPlain initState ⟨"doc.pdf", .opened "sometext" aiSample⟩).parsed_lines.length
      = initState.parsed_lines.length + (aiEffective cfgPlain "sometext" "doc.pdf" aiSample).lines.length :=
  C1_lines_never_discarded cfgPlain initState "doc.pdf" "sometext" aiSample (by decide) rfl

/-! ## C2: graceful degradation and the persistence step -/

/-- One for a `.pdf` entry, zero otherwise. -/
def entryPdfCount (e : ZipEntry) : Nat := if isPdfName e.name then 1 else 0

/-- One for a `.pdf` entry that fails to open, zero otherwise. -/
def entryFailCount (e : ZipEntry) : Nat :=
  if isPdfName e.name then
    match e.pdf with
    | .openFail _ => 1
    | .opened _ _ => 0
  else 0

/-- Failures contributed by one uploaded file. -/
def fileFailCount : UploadFile → Nat
  | .badZip _ => 1
  | .zipReadFail _ _ => 1
  | .archive _ es => (es.map entryFailCount).sum

/-- PDF entries contributed by one uploaded file. -/
def filePdfCount : UploadFile → Nat
  | .archive _ es => (es.map entryPdfCount).sum
  | _ => 0

/-- Total archive-level and PDF-level failures of a batch. -/
def countFailures (files : List UploadFile) : Nat := (files.map fileFailCount).sum

/-- Total `.pdf` entries of a batch. -/
def countPdfs (files : List UploadFile) : Nat := (files.map filePdfCount).sum

/-- One entry adds its failure to `errors` and its PDF flag to
`files_count`, whatever else it does. -/
theorem processEntry_counts (cfg : Config) (st : IngestState) (e : ZipEntry) :
    (processEntry cfg st e).errors.length = st.errors.length + entryFailCount e
    ∧ (processEntry cfg st e).files_count = st.files_count + entryPdfCount e := by
  by_cases hp : isPdfName e.name = true
  · cases e with
    | mk name pdf =>
      cases pdf with
      | openFail msg =>
        rw [processEntry_openFail cfg st name msg hp]
        simp [entryFailCount, entryPdfCount, hp]
      | opened text ai =>
        by_cases hd : st.seen.contains (invNoOf cfg text name ai) = true
        · rw [processEntry_dup cfg st name text ai hp hd]
          simp [entryFailCount, entryPdfCount, hp]
        · rw [processEntry_fresh cfg st name text ai hp (by simpa using hd)]
          simp [entryFailCount, entryPdfCount, hp]
  · have hp' : isPdfName e.name = false := by simpa using hp
    rw [processEntry_not_pdf cfg st e hp']
    simp [entryFailCount, entryPdfCount, hp']

/-- Entry-fold version of the count bookkeeping. -/
theorem entriesFold_counts (cfg : Config) :
    ∀ (es : List ZipEntry) (st : IngestState),
      ((es.foldl (processEntry cfg) st).errors.length
          = st.errors.length + (es.map entryFailCount).sum)
      ∧ ((es.foldl (processEntry cfg) st).files_count
          = st.files_count + (es.map entryPdfCount).sum)
  | [], st => by simp
  | e :: es, st => by
    have hstep := processEntry_counts cfg st e
    have hrest := entriesFold_counts cfg es (processEntry cfg st e)
    simp only [List.foldl_cons, List.map_cons, List.sum_cons]
    constructor
    · rw [hrest.1, hstep.1]; omega
    · rw [hrest.2, hstep.2]; omega

/-- One uploaded file adds its failures and PDF count. -/
theorem processFile_counts (cfg : Config) (st : IngestState) (f : UploadFile) :
    (processFile cfg st f).errors.length = st.errors.length + fileFailCount f
    ∧ (processFile cfg st f).files_count = st.files_count + filePdfCount f := by
  cases f with
  | badZip fname => simp [processFile, fileFailCount, filePdfCount]
  | zipReadFail fname msg => simp [processFile, fileFailCount, filePdfCount]
  | archive fname es => simpa [processFile, fileFailCount, filePdfCount]
      using entriesFold_counts cfg es st

/-- File-fold version of the count bookkeeping. -/
theorem filesFold_counts (cfg : Config) :
    ∀ (files : List UploadFile) (st : IngestState),
      ((files.foldl (processFile cfg) st).errors.length
          = st.errors.length + countFailures files)
      ∧ ((files.foldl (processFile cfg) st).files_count
          = st.files_count + countPdfs files)
  | [], st => by simp [countFailures, countPdfs]
  | f :: files, st => by
    have hstep := processFile_counts cfg st f
    have hrest := filesFold_counts cfg files (processFile cfg st f)
    simp only [List.foldl_cons, countFailures, countPdfs, List.map_cons, List.sum_cons]
    constructor
    · rw [hrest.1, hstep.1]; simp [countFailures]; omega
    · rw [hrest.2, hstep.2]; simp [countPdfs]; omega

/-- The extraction loop records exactly the archive/PDF failures and counts
exactly the PDF entries. -/
theorem ingestCore_counts (cfg : Config) (files : List UploadFile) :
    (ingestCore cfg files).errors.length = countFailures files
    ∧ (ingestCore cfg files).files_count = countPdfs files := by
  have h := filesFold_counts cfg files initState
  simpa [ingestCore, initState] using h

/-- C2 (counterexample): with a Supabase client whose upsert raises, an
ingest call whose archive enumeration fully succeeded (no error strings at
all) returns no response: the exception propagates and the computed
extraction results are lost. -/
theorem C2_counterexample :
    (ingestCore cfgSbRaise filesSample).errors = []
    ∧ ingest cfgSbRaise filesSample = .error "invoices write raised" := by
  constructor
  · with_unfolding_all rfl
  · with_unfolding_all rfl

/-- C2 (amended): a response is returned exactly when neither remote-store
write raises (trivially so when the store is absent or there is nothing to
write); in that case the response degrades gracefully — one error string
per failed archive or unopenable PDF, with every PDF entry counted.  A
raising write, however, escapes `ingest` and discards the results. -/
theorem C2_response_iff_persistence (cfg : Config) (files : List UploadFile) :
    ((ingest cfg files).isOk = true ↔
      (¬ (cfg.sbEnabled = true ∧ (ingestCore cfg files).invoices_rows ≠ []
            ∧ cfg.upsertRaises = true)
        ∧ ¬ (cfg.sbEnabled = true ∧ (ingestCore cfg files).parsed_lines ≠ []
            ∧ cfg.insertRaises = true)))
    ∧ (∀ r, ingest cfg files = .ok r →
        r.errors.length = countFailures files
        ∧ r.files_processed = countPdfs files) := by
  constructor
  · unfold ingest sbWriteChunked
    by_cases hs : cfg.sbEnabled = true
    · by_cases hu : (ingestCore cfg files).invoices_rows = []
      · by_cases hi : (ingestCore cfg files).parsed_lines = []
        · simp [hs, hu, hi, List.isEmpty_iff, Except.isOk, Except.toBool]
        · by_cases hr : cfg.insertRaises = true
          · simp [hs, hu, hi, hr, List.isEmpty_iff, Except.isOk, Except.toBool]
          · simp [hs, hu, hi, hr, List.isEmpty_iff, Except.isOk, Except.toBool]
      · by_cases hq : cfg.upsertRaises = true
        · simp [hs, hu, hq, List.isEmpty_iff, Except.isOk, Except.toBool]
        · by_cases hi : (ingestCore cfg files).parsed_lines = []
          · simp [hs, hu, hq, hi, List.isEmpty_iff, Except.isOk, Except.toBool]
          · by_cases hr : cfg.insertRaises = true
            · simp [hs, hu, hq, hi, hr, List.isEmpty_iff, Except.isOk, Except.toBool]
            · simp [hs, hu, hq, hi, hr, List.isEmpty_iff, Except.isOk, Except.toBool]
    · simp [hs, List.isEmpty_iff, Except.isOk, Except.toBool]
  · intro r hr
    have hc := ingestCore_counts cfg files
    unfold ingest at hr
    cases h1 : sbWriteChunked cfg.sbEnabled cfg.upsertRaises
        (ingestCore cfg files).invoices_rows "invoices" with
    | error e => rw [h1] at hr; exact absurd hr (by simp)
    | ok u =>
      rw [h1] at hr
      cases h2 : sbWriteChunked cfg.sbEnabled cfg.insertRaises
          (ingestCore cfg files).parsed_lines "items" with
      | error e => rw [h2] at hr; exact absurd hr (by simp)
      | ok u2 =>
        rw [h2] at hr
        have : mkResponse (ingestCore cfg files) = r := by
          simpa using hr
        rw [← this]
        exact ⟨hc.1, hc.2⟩

/-- C2 witness: with the store absent, the call returns a response. -/
theorem C2_witness : (ingest cfgPlain filesSample).isOk = true :=
  (C2_response_iff_persistence cfgPlain filesSample).1.mpr
    ⟨fun hc => Bool.noConfusion hc.1, fun hc => Bool.noConfusion hc.1⟩

/-! ## C6, C7, C10: deduplication and the invoice-row gate -/

/-- Loop invariant: invoice-row numbers are pairwise distinct and all
registered in the dedup set. -/
def recordsConsistent (st : IngestState) : Prop :=
  (st.invoices_rows.map (fun r => r.invoice_number)).Nodup
  ∧ ∀ r ∈ st.invoices_rows, r.invoice_number ∈ st.seen

/-- Any invoice record a PDF contributes carries that PDF's inferred
number. -/
theorem pdfInvRows_number (cfg : Config) (text name : String) (ai : AIDict) :
    ∀ r ∈ pdfInvRows cfg text name ai,
      r.invoice_number = invNoOf cfg text name ai := by
  unfold pdfInvRows
  split
  · intro r hr
    simp at hr
    rw [hr]
  · intro r hr
    simp at hr

/-- One entry preserves the dedup invariant. -/
theorem processEntry_consistent (cfg : Config) (st : IngestState) (e : ZipEntry)
    (h : recordsConsistent st) : recordsConsistent (processEntry cfg st e) := by
  by_cases hp : isPdfName e.name = true
  · cases e with
    | mk name pdf =>
      cases pdf with
      | openFail msg =>
        rw [processEntry_openFail cfg st name msg hp]
        exact h
      | opened text ai =>
        by_cases hd : st.seen.contains (invNoOf cfg text name ai) = true
        · rw [processEntry_dup cfg st name text ai hp hd]
          exact h
        · have hd' : st.seen.contains (invNoOf cfg text name ai) = false := by
            simpa using hd
          rw [processEntry_fresh cfg st name text ai hp hd']
          have hnotin : invNoOf cfg text name ai ∉ st.seen := by simpa using hd'
          constructor
          · show ((st.invoices_rows ++ pdfInvRows cfg text name ai).map
                (fun r => r.invoice_number)).Nodup
            rw [List.map_append]
            apply List.Nodup.append h.1
            · unfold pdfInvRows
              split <;> simp
            · intro x hx hx2
              obtain ⟨r, hr, hre⟩ := List.mem_map.mp hx
              obtain ⟨r2, hr2, hre2⟩ := List.mem_map.mp hx2
              have : r2.invoice_number = invNoOf cfg text name ai :=
                pdfInvRows_number cfg text name ai r2 hr2
              apply hnotin
              rw [← hre2, this] at hre
              exact hre ▸ h.2 r hr
          · intro r hr
            show r.invoice_number ∈ st.seen ++ [invNoOf cfg text name ai]
            rcases List.mem_append.mp hr with hl | hrt
            · exact List.mem_append_left _ (h.2 r hl)
            · have := pdfInvRows_number cfg text name ai r hrt
              rw [this]
              exact List.mem_append_right _ (by simp)
  · have hp' : isPdfName e.name = false := by simpa using hp
    rw [processEntry_not_pdf cfg st e hp']
    exact h

/-- The entry fold preserves the dedup invariant. -/
theorem entriesFold_consistent (cfg : Config) :
    ∀ (es : List ZipEntry) (st : IngestState),
      recordsConsistent st → recordsConsistent (es.foldl (processEntry cfg) st)
  | [], _, h => h
  | e :: es, st, h =>
    entriesFold_consistent cfg es (processEntry cfg st e)
      (processEntry_consistent cfg st e h)

/-- One uploaded file preserves the dedup invariant. -/
theorem processFile_consistent (cfg : Config) (st : IngestState) (f : UploadFile)
    (h : recordsConsistent st) : recordsConsistent (processFile cfg st f) := by
  cases f with
  | badZip fname => exact h
  | zipReadFail fname msg => exact h
  | archive fname es => exact entriesFold_consistent cfg es st h

/-- The file fold preserves the dedup invariant. -/
theorem filesFold_consistent (cfg : Config) :
    ∀ (files : List UploadFile) (st : IngestState),
      recordsConsistent st → recordsConsistent (files.foldl (processFile cfg) st)
  | [], _, h => h
  | f :: files, st, h =>
    filesFold_consistent cfg files (processFile cfg st f)
      (processFile_consistent cfg st f h)

/-- The whole extraction loop satisfies the dedup invariant. -/
theorem ingestCore_consistent (cfg : Config) (files : List UploadFile) :
    recordsConsistent (ingestCore cfg files) :=
  filesFold_consistent cfg files initState ⟨List.nodup_nil, by simp [initState]⟩

/-- When the mapped keys of a list are pairwise distinct, at most one
element matches any fixed key. -/
theorem length_filter_of_nodup_map {α β : Type} [DecidableEq β] (f : α → β) :
    ∀ (l : List α), (l.map f).Nodup → ∀ b : β,
      (l.filter (fun a => f a = b)).length ≤ 1
  | [], _, b => by simp
  | a :: l, h, b => by
    simp only [List.map_cons, List.nodup_cons] at h
    by_cases hb : f a = b
    · have hnil : l.filter (fun x => f x = b) = [] := by
        rw [List.filter_eq_nil_iff]
        intro x hx
        simp only [decide_eq_true_eq]
        intro hfx
        exact h.1 (by rw [← hb] at hfx; exact hfx ▸ List.mem_map_of_mem f hx)
      simp [List.filter_cons, hb, hnil]
    · have ih := length_filter_of_nodup_map f l h.2 b
      simpa [List.filter_cons, hb] using ih

/-- C6 (amended): a duplicated inferred invoice number yields at most one
invoice record (exactly one only when the first occurrence passes the
totals gate), and a PDF whose number was already seen is skipped entirely,
contributing nothing but the file count. -/
theorem C6_dedup_at_most_one :
    (∀ (cfg : Config) (files : List UploadFile) (n : String),
      (((ingestCore cfg files).invoices_rows).filter
          (fun r => r.invoice_number = n)).length ≤ 1)
    ∧ (∀ (cfg : Config) (st : IngestState) (name text : String) (ai : AIDict),
        isPdfName name = true →
        st.seen.contains (invNoOf cfg text name ai) = true →
        processEntry cfg st ⟨name, .opened text ai⟩
          = { st with files_count := st.files_count + 1 }) :=
  ⟨fun cfg files n =>
    length_filter_of_nodup_map (fun r => r.invoice_number)
      (ingestCore cfg files).invoices_rows (ingestCore_consistent cfg files).1 n,
   fun cfg st name text ai hpdf hdup => processEntry_dup cfg st name text ai hpdf hdup⟩

/-- C6 (counterexample): two documents both infer invoice number `N`; the
first has all-zero totals, so zero — not exactly one — invoice records are
produced for `N`, even though the number is registered and the second
document is dropped. -/
theorem C6_counterexample :
    invNoOf cfgPlain "t1" "d1.pdf" aiZero = "N"
    ∧ invNoOf cfgPlain "t2" "d2.pdf" aiPos = "N"
    ∧ (ingestCore cfgPlain filesDup).invoices_rows = []
    ∧ (ingestCore cfgPlain filesDup).seen = ["N"] := by
  refine ⟨?_, ?_, ?_, ?_⟩ <;> with_unfolding_all rfl

/-- The state after the all-zero first document. -/
def stAfterZero : IngestState :=
  processEntry cfgPlain initState ⟨"d1.pdf", .opened "t1" aiZero⟩

/-- C6 witness: the skip clause of the amended claim at the duplicate
document. -/
theorem C6_witness :
    processEntry cfgPlain stAfterZero ⟨"d2.pdf", .opened "t2" aiPos⟩
      = { stAfterZero with files_count := stAfterZero.files_count + 1 } :=
  C6_dedup_at_most_one.2 cfgPlain stAfterZero "d2.pdf" "t2" aiPos (by decide)
    (by with_unfolding_all rfl)

/-- C7 (amended): invoice-record numbers are pairwise distinct (at most
one record per distinct number), and a first-seen PDF yields a record
exactly when its accumulated totals pass the `total_qty > 0 or total_val >
0` gate. -/
theorem C7_unique_invoice_rows_gated :
    (∀ (cfg : Config) (files : List UploadFile),
      (((ingestCore cfg files).invoices_rows).map (fun r => r.invoice_number)).Nodup)
    ∧ (∀ (cfg : Config) (st : IngestState) (name text : String) (ai : AIDict),
        isPdfName name = true →
        st.seen.contains (invNoOf cfg text name ai) = false →
        (processEntry cfg st ⟨name, .opened text ai⟩).invoices_rows.length
          = st.invoices_rows.length
            + (if 0 < totQty (aiEffective cfg text name ai).lines
                ∨ 0 < totVal (aiEffective cfg text name ai).lines then 1 else 0)) := by
  constructor
  · exact fun cfg files => (ingestCore_consistent cfg files).1
  · intro cfg st name text ai hpdf hfresh
    rw [processEntry_fresh cfg st name text ai hpdf hfresh]
    show (st.invoices_rows ++ pdfInvRows cfg text name ai).length = _
    unfold pdfInvRows
    split <;> simp

/-- C7 (counterexample): a batch with a single document whose extraction
has all-zero totals registers the invoice number but produces no
InvoiceRecord at all, against the claim that every first occurrence yields
one. -/
theorem C7_counterexample :
    (ingestCore cfgPlain filesZero).seen = ["N"]
    ∧ (ingestCore cfgPlain filesZero).invoices_rows = [] := by
  constructor <;> with_unfolding_all rfl

/-- C7 witness: the gate clause at a document with positive totals. -/
theorem C7_witness :
    (processEntry cfgPlain initState ⟨"d2.pdf", .opened "t2" aiPos⟩).invoices_rows.length
      = initState.invoices_rows.length
        + (if 0 < totQty (aiEffective cfgPlain "t2" "d2.pdf" aiPos).lines
            ∨ 0 < totVal (aiEffective cfgPlain "t2" "d2.pdf" aiPos).lines then 1 else 0) :=
  C7_unique_invoice_rows_gated.2 cfgPlain initState "d2.pdf" "t2" aiPos (by decide) rfl

/-- C10 (counterexample): the all-zero first document registers `N` and
the later positive document is skipped, but the first occurrence did
contribute a parsed line (its zero-valued row), against the claim that it
contributed no parsed lines. -/
theorem C10_counterexample :
    (ingestCore cfgPlain filesDup).seen = ["N"]
    ∧ (ingestCore cfgPlain filesDup).invoices_rows = []
    ∧ (ingestCore cfgPlain filesDup).parsed_lines.length = 1 := by
  refine ⟨?_, ?_, ?_⟩ <;> with_unfolding_all rfl

/-- C10 (amended): a first-seen document failing the totals gate registers
its inferred number (so any later document with the same number is skipped
entirely, contributing only the file count) and contributes no invoice
row; it contributes no parsed lines when it has no candidate lines, though
zero-valued candidate lines do land in `parsed_lines`. -/
theorem C10_dedup_registration (cfg : Config) (st : IngestState)
    (name text : String) (ai : AIDict)
    (hpdf : isPdfName name = true)
    (hfresh : st.seen.contains (invNoOf cfg text name ai) = false)
    (hgate : ¬ (0 < totQty (aiEffective cfg text name ai).lines
        ∨ 0 < totVal (aiEffective cfg text name ai).lines)) :
    (processEntry cfg st ⟨name, .opened text ai⟩).seen
        = st.seen ++ [invNoOf cfg text name ai]
    ∧ (processEntry cfg st ⟨name, .opened text ai⟩).invoices_rows = st.invoices_rows
    ∧ (processEntry cfg st ⟨name, .opened text ai⟩).parsed_lines
        = st.parsed_lines ++ pdfRows cfg text name ai
    ∧ ((aiEffective cfg text name ai).lines = [] →
        (processEntry cfg st ⟨name, .opened text ai⟩).parsed_lines = st.parsed_lines)
    ∧ (∀ (name2 text2 : String) (ai2 : AIDict),
        isPdfName name2 = true →
        invNoOf cfg text2 name2 ai2 = invNoOf cfg text name ai →
        processEntry cfg (processEntry cfg st ⟨name, .opened text ai⟩)
            ⟨name2, .opened text2 ai2⟩
          = { processEntry cfg st ⟨name, .opened text ai⟩ with
              files_count := (processEntry cfg st ⟨name, .opened text ai⟩).files_count + 1 }) := by
  rw [processEntry_fresh cfg st name text ai hpdf hfresh]
  have hinv : pdfInvRows cfg text name ai = [] := by
    unfold pdfInvRows
    rw [if_neg hgate]
  refine ⟨rfl, by simp [hinv], rfl, fun hl => ?_, fun name2 text2 ai2 hpdf2 heq => ?_⟩
  · show st.parsed_lines ++ pdfRows cfg text name ai = st.parsed_lines
    simp [pdfRows, hl]
  · rw [processEntry_dup]
    · exact hpdf2
    · show ((st.seen ++ [invNoOf cfg text name ai]).contains
          (invNoOf cfg text2 name2 ai2)) = true
      rw [heq]
      simp

/-- C10 witness: registration with no invoice row at the all-zero
document. -/
theorem C10_witness :
    (processEntry cfgPlain initState ⟨"d1.pdf", .opened "t1" aiZero⟩).seen
        = initState.seen ++ [invNoOf cfgPlain "t1" "d1.pdf" aiZero]
    ∧ (processEntry cfgPlain initState ⟨"d1.pdf", .opened "t1" aiZero⟩).invoices_rows
        = initState.invoices_rows :=
  ⟨(C10_dedup_registration cfgPlain initState "d1.pdf" "t1" aiZero (by decide) rfl
      (by with_unfolding_all exact of_decide_eq_true rfl)).1,
   (C10_dedup_registration cfgPlain initState "d1.pdf" "t1" aiZero (by decide) rfl
      (by with_unfolding_all exact of_decide_eq_true rfl)).2.1⟩
